import Mathlib

/-!
Shallow embedding of `src/bin/openstack_free_usage.py` (a Python 2 script).

Python 2 `/` on two ints is floor division (rounds toward negative
infinity), which is `Int.fdiv`; dividing by zero raises
`ZeroDivisionError`.  `max()` over an empty sequence raises `ValueError`.
Fallible evaluation is modelled with `Except PyError`.
-/

namespace OpenstackFreeUsage

/-- Python runtime errors that the script can hit on the modelled paths. -/
inductive PyError where
  | zeroDivisionError : PyError
  | valueError : PyError
  deriving Repr, DecidableEq

/-- A compute-node record with the six resource counters read by the script
(plus the hostname used for sorting). -/
structure ComputeNode where
  hypervisor_hostname : String
  vcpus : Int
  vcpus_used : Int
  memory_mb : Int
  free_ram_mb : Int
  local_gb : Int
  local_gb_used : Int
  deriving Repr, DecidableEq

/-- A flavor record with the four resource fields read by the script. -/
structure Flavor where
  name : String
  vcpus : Int
  memory_mb : Int
  root_gb : Int
  ephemeral_gb : Int
  deriving Repr, DecidableEq

/-- Python 2 integer division `a / b`: floor division, raising
`ZeroDivisionError` when `b = 0`. -/
def pyFloorDiv (a b : Int) : Except PyError Int :=
  if b = 0 then Except.error PyError.zeroDivisionError else Except.ok (Int.fdiv a b)

/-- The body of the `for node in nodes` loop of `count_free_slots_by_flavor`:
the six divisions, in source order, producing `(n_vms, n_maxvms)`.
Python `min(x, y, z)` is `min (min x y) z`. -/
def node_fits (node : ComputeNode) (flavor : Flavor) : Except PyError (Int × Int) :=
  Except.bind (pyFloorDiv (node.vcpus - node.vcpus_used) flavor.vcpus) (fun a =>
  Except.bind (pyFloorDiv node.free_ram_mb flavor.memory_mb) (fun b =>
  Except.bind (pyFloorDiv (node.local_gb - node.local_gb_used)
      (flavor.root_gb + flavor.ephemeral_gb)) (fun c =>
  Except.bind (pyFloorDiv node.vcpus flavor.vcpus) (fun d =>
  Except.bind (pyFloorDiv node.memory_mb flavor.memory_mb) (fun e =>
  Except.bind (pyFloorDiv node.local_gb (flavor.root_gb + flavor.ephemeral_gb)) (fun f =>
  Except.ok (min (min a b) c, min (min d e) f)))))))

/-- The loop of `count_free_slots_by_flavor` with its two accumulators
`count` and `max_count`, both starting at 0; a per-node fit is added only
when strictly positive. -/
def countFreeGo (flavor : Flavor) : List ComputeNode → Int → Int → Except PyError (Int × Int)
  | [], count, max_count => Except.ok (count, max_count)
  | node :: rest, count, max_count =>
    Except.bind (node_fits node flavor) (fun p =>
      countFreeGo flavor rest
        (if p.1 > 0 then count + p.1 else count)
        (if p.2 > 0 then max_count + p.2 else max_count))

/-- `count_free_slots_by_flavor(ctxt, nodes, flavor)`: the `ctxt` parameter
is accepted but never read by the function body. -/
def count_free_slots_by_flavor {α : Type} (ctxt : α) (nodes : List ComputeNode)
    (flavor : Flavor) : Except PyError (Int × Int) :=
  countFreeGo flavor nodes 0 0

/-- Pure value of `n_vms` for one node (meaningful when all divisors are
nonzero): the free-capacity fit. -/
def free_fit (node : ComputeNode) (flavor : Flavor) : Int :=
  min (min (Int.fdiv (node.vcpus - node.vcpus_used) flavor.vcpus)
           (Int.fdiv node.free_ram_mb flavor.memory_mb))
      (Int.fdiv (node.local_gb - node.local_gb_used) (flavor.root_gb + flavor.ephemeral_gb))

/-- Pure value of `n_maxvms` for one node: the total-capacity fit. -/
def max_fit (node : ComputeNode) (flavor : Flavor) : Int :=
  min (min (Int.fdiv node.vcpus flavor.vcpus)
           (Int.fdiv node.memory_mb flavor.memory_mb))
      (Int.fdiv node.local_gb (flavor.root_gb + flavor.ephemeral_gb))

/-- Contribution of one per-node fit to a running total: added only when
strictly positive, otherwise nothing. -/
def clampPos (n : Int) : Int := if n > 0 then n else 0

/-- The free-capacity total accumulated by the loop. -/
def free_count (flavor : Flavor) : List ComputeNode → Int
  | [] => 0
  | node :: rest => clampPos (free_fit node flavor) + free_count flavor rest

/-- The total-capacity total accumulated by the loop. -/
def max_count_total (flavor : Flavor) : List ComputeNode → Int
  | [] => 0
  | node :: rest => clampPos (max_fit node flavor) + max_count_total flavor rest

/-- All three constraint divisors of a flavor are strictly positive. -/
def PosFlavor (flavor : Flavor) : Prop :=
  0 < flavor.vcpus ∧ 0 < flavor.memory_mb ∧ 0 < flavor.root_gb + flavor.ephemeral_gb

instance (flavor : Flavor) : Decidable (PosFlavor flavor) :=
  decidable_of_iff
    (0 < flavor.vcpus ∧ 0 < flavor.memory_mb ∧ 0 < flavor.root_gb + flavor.ephemeral_gb)
    Iff.rfl

/-- Scenario A node of the spec. -/
def scenario_a_node : ComputeNode :=
  { hypervisor_hostname := "node-1", vcpus := 8, vcpus_used := 2, memory_mb := 16000,
    free_ram_mb := 8000, local_gb := 100, local_gb_used := 40 }

/-- Scenario A flavor of the spec. -/
def scenario_a_flavor : Flavor :=
  { name := "m1.medium", vcpus := 2, memory_mb := 2000, root_gb := 10, ephemeral_gb := 0 }

/-- Scenario B node of the spec: oversubscribed on CPU. -/
def scenario_b_node : ComputeNode :=
  { hypervisor_hostname := "node-2", vcpus := 8, vcpus_used := 10, memory_mb := 16000,
    free_ram_mb := 8000, local_gb := 100, local_gb_used := 40 }

/-- Scenario D flavor of the spec: zero memory requirement. -/
def scenario_d_flavor : Flavor :=
  { name := "bad", vcpus := 2, memory_mb := 0, root_gb := 10, ephemeral_gb := 0 }

/-- Bridging lemma: with strictly positive divisors the loop body never
fails and computes the pure fits. -/
theorem node_fits_eq (node : ComputeNode) (flavor : Flavor) (h : PosFlavor flavor) :
    node_fits node flavor = Except.ok (free_fit node flavor, max_fit node flavor) := by
  obtain ⟨h1, h2, h3⟩ := h
  simp [node_fits, pyFloorDiv, h1.ne', h2.ne', h3.ne', Except.bind, free_fit, max_fit]

/-- Bridging lemma for the loop with arbitrary accumulators. -/
theorem countFreeGo_eq (flavor : Flavor) (h : PosFlavor flavor) :
    ∀ (nodes : List ComputeNode) (c m : Int),
      countFreeGo flavor nodes c m
        = Except.ok (c + free_count flavor nodes, m + max_count_total flavor nodes) := by
  intro nodes
  induction nodes with
  | nil => intro c m; simp [countFreeGo, free_count, max_count_total]
  | cons node rest ih =>
      intro c m
      rw [countFreeGo, node_fits_eq node flavor h]
      show countFreeGo flavor rest _ _ = _
      rw [ih]
      have hfc : (if free_fit node flavor > 0 then c + free_fit node flavor else c)
          = c + clampPos (free_fit node flavor) := by
        unfold clampPos; split <;> omega
      have hmc : (if max_fit node flavor > 0 then m + max_fit node flavor else m)
          = m + clampPos (max_fit node flavor) := by
        unfold clampPos; split <;> omega
      rw [hfc, hmc]
      simp [free_count, max_count_total]
      constructor <;> ring

/-- With strictly positive divisors `count_free_slots_by_flavor` returns the
pair of clamped per-node sums. -/
theorem count_free_slots_eq {α : Type} (ctxt : α) (nodes : List ComputeNode)
    (flavor : Flavor) (h : PosFlavor flavor) :
    count_free_slots_by_flavor ctxt nodes flavor
      = Except.ok (free_count flavor nodes, max_count_total flavor nodes) := by
  unfold count_free_slots_by_flavor
  rw [countFreeGo_eq flavor h]
  simp

/-- Floor division is monotone in the numerator for a positive divisor. -/
theorem fdiv_le_fdiv_num {a b c : Int} (hc : 0 < c) (h : a ≤ b) :
    Int.fdiv a c ≤ Int.fdiv b c := by
  rw [Int.fdiv_eq_ediv _ hc.le, Int.fdiv_eq_ediv _ hc.le]
  exact Int.ediv_le_ediv hc h

/-- Floor division of a nonnegative numerator is antitone in a positive
divisor. -/
theorem fdiv_antitone_den {a b b' : Int} (ha : 0 ≤ a) (hb : 0 < b) (hbb' : b ≤ b') :
    Int.fdiv a b' ≤ Int.fdiv a b := by
  have hb' : 0 < b' := lt_of_lt_of_le hb hbb'
  rw [Int.fdiv_eq_ediv _ hb.le, Int.fdiv_eq_ediv _ hb'.le]
  have hnn : 0 ≤ a / b' := Int.ediv_nonneg ha hb'.le
  have hle : a / b' * b' ≤ a := Int.ediv_mul_le a hb'.ne'
  have hmul : a / b' * b ≤ a / b' * b' := mul_le_mul_of_nonneg_left hbb' hnn
  exact (Int.le_ediv_iff_mul_le hb).mpr (le_trans hmul hle)

/-- A negative numerator floor-divided by a positive divisor is negative. -/
theorem fdiv_neg_of_neg {a b : Int} (ha : a < 0) (hb : 0 < b) : Int.fdiv a b < 0 :=
  Int.fdiv_neg' ha hb

theorem clampPos_nonneg (n : Int) : 0 ≤ clampPos n := by
  unfold clampPos; split <;> omega

theorem clampPos_mono {a b : Int} (h : a ≤ b) : clampPos a ≤ clampPos b := by
  unfold clampPos; split <;> split <;> omega

theorem clampPos_eq_max (n : Int) : clampPos n = max n 0 := by
  unfold clampPos; split <;> omega

theorem free_count_nonneg (flavor : Flavor) :
    ∀ nodes : List ComputeNode, 0 ≤ free_count flavor nodes
  | [] => le_refl 0
  | node :: rest => by
      have h1 := clampPos_nonneg (free_fit node flavor)
      have h2 := free_count_nonneg flavor rest
      unfold free_count
      omega

theorem max_count_total_nonneg (flavor : Flavor) :
    ∀ nodes : List ComputeNode, 0 ≤ max_count_total flavor nodes
  | [] => le_refl 0
  | node :: rest => by
      have h1 := clampPos_nonneg (max_fit node flavor)
      have h2 := max_count_total_nonneg flavor rest
      unfold max_count_total
      omega

/-- The free-capacity fit formula as written in the spec, with real number
(here rational) division under an explicit floor. -/
def spec_free_fit (node : ComputeNode) (flavor : Flavor) : Int :=
  min (min ⌊((node.vcpus - node.vcpus_used : Int) : ℚ) / (flavor.vcpus : ℚ)⌋
           ⌊(node.free_ram_mb : ℚ) / (flavor.memory_mb : ℚ)⌋)
      ⌊((node.local_gb - node.local_gb_used : Int) : ℚ)
          / ((flavor.root_gb + flavor.ephemeral_gb : Int) : ℚ)⌋

/-- The total-capacity fit formula as written in the spec. -/
def spec_max_fit (node : ComputeNode) (flavor : Flavor) : Int :=
  min (min ⌊(node.vcpus : ℚ) / (flavor.vcpus : ℚ)⌋
           ⌊(node.memory_mb : ℚ) / (flavor.memory_mb : ℚ)⌋)
      ⌊(node.local_gb : ℚ) / ((flavor.root_gb + flavor.ephemeral_gb : Int) : ℚ)⌋

/-- Floor of a rational quotient of integers with positive denominator is
`Int.fdiv`. -/
theorem floor_div_eq_fdiv (a : Int) {b : Int} (hb : 0 < b) :
    ⌊(a : ℚ) / (b : ℚ)⌋ = Int.fdiv a b := by
  have hb0 : ((b.toNat : ℕ) : Int) = b := Int.toNat_of_nonneg hb.le
  have hq : (b : ℚ) = ((b.toNat : ℕ) : ℚ) := by
    rw [← hb0]
    push_cast
    rfl
  rw [Int.fdiv_eq_ediv _ hb.le, hq, Rat.floor_intCast_div_natCast a b.toNat, hb0]

theorem clampPos_eq_zero_of_nonpos {a : Int} (h : a ≤ 0) : clampPos a = 0 := by
  unfold clampPos; split <;> omega

/-- A loop body with any zero constraint divisor hits a division by zero. -/
theorem node_fits_zero_divisor (node : ComputeNode) (flavor : Flavor)
    (h : flavor.vcpus = 0 ∨ flavor.memory_mb = 0 ∨ flavor.root_gb + flavor.ephemeral_gb = 0) :
    node_fits node flavor = Except.error PyError.zeroDivisionError := by
  by_cases h1 : flavor.vcpus = 0
  · simp [node_fits, pyFloorDiv, h1, Except.bind]
  · by_cases h2 : flavor.memory_mb = 0
    · simp [node_fits, pyFloorDiv, h1, h2, Except.bind]
    · have h3 : flavor.root_gb + flavor.ephemeral_gb = 0 := by tauto
      simp [node_fits, pyFloorDiv, h1, h2, h3, Except.bind]

/-- Claim C1: with strictly positive divisors the per-node fits computed by
`count_free_slots_by_flavor` equal the spec's floor formulas, and on
Scenario A's single node and flavor the function returns `(3, 4)`. -/
theorem claim_c1 {α : Type} (ctxt : α) (node : ComputeNode) (flavor : Flavor)
    (h : PosFlavor flavor) :
    free_fit node flavor = spec_free_fit node flavor ∧
    max_fit node flavor = spec_max_fit node flavor ∧
    count_free_slots_by_flavor ctxt [node] flavor
      = Except.ok (clampPos (free_fit node flavor), clampPos (max_fit node flavor)) ∧
    count_free_slots_by_flavor ctxt [scenario_a_node] scenario_a_flavor = Except.ok (3, 4) := by
  obtain ⟨h1, h2, h3⟩ := h
  refine ⟨?_, ?_, ?_, ?_⟩
  · unfold spec_free_fit free_fit
    rw [floor_div_eq_fdiv _ h1, floor_div_eq_fdiv _ h2, floor_div_eq_fdiv _ h3]
  · unfold spec_max_fit max_fit
    rw [floor_div_eq_fdiv _ h1, floor_div_eq_fdiv _ h2, floor_div_eq_fdiv _ h3]
  · rw [count_free_slots_eq ctxt [node] flavor ⟨h1, h2, h3⟩]
    simp [free_count, max_count_total]
  · rfl

/-- Witness for C1 at Scenario A. -/
theorem claim_c1_witness :
    PosFlavor scenario_a_flavor ∧
    (free_fit scenario_a_node scenario_a_flavor = spec_free_fit scenario_a_node scenario_a_flavor ∧
     max_fit scenario_a_node scenario_a_flavor = spec_max_fit scenario_a_node scenario_a_flavor ∧
     count_free_slots_by_flavor () [scenario_a_node] scenario_a_flavor
       = Except.ok (clampPos (free_fit scenario_a_node scenario_a_flavor),
                    clampPos (max_fit scenario_a_node scenario_a_flavor)) ∧
     count_free_slots_by_flavor () [scenario_a_node] scenario_a_flavor = Except.ok (3, 4)) :=
  ⟨by decide, claim_c1 () scenario_a_node scenario_a_flavor (by decide)⟩

/-- Claim C2: with strictly positive divisors both totals are the clamped
per-node sums, both are nonnegative, each node contributes `max fit 0` to its
total (so a zero or negative fit contributes nothing), and Scenario B's
oversubscribed node has a negative free fit and contributes `0` to the free
total while its max total stays positive. -/
theorem claim_c2 {α : Type} (ctxt : α) (nodes : List ComputeNode) (flavor : Flavor)
    (node : ComputeNode) (h : PosFlavor flavor) :
    count_free_slots_by_flavor ctxt nodes flavor
      = Except.ok (free_count flavor nodes, max_count_total flavor nodes) ∧
    0 ≤ free_count flavor nodes ∧ 0 ≤ max_count_total flavor nodes ∧
    free_count flavor (node :: nodes) = max (free_fit node flavor) 0 + free_count flavor nodes ∧
    max_count_total flavor (node :: nodes)
      = max (max_fit node flavor) 0 + max_count_total flavor nodes ∧
    free_fit scenario_b_node scenario_a_flavor < 0 ∧
    count_free_slots_by_flavor ctxt [scenario_b_node] scenario_a_flavor = Except.ok (0, 4) := by
  refine ⟨count_free_slots_eq ctxt nodes flavor h, free_count_nonneg flavor nodes,
    max_count_total_nonneg flavor nodes, ?_, ?_, by decide, ?_⟩
  · simp [free_count, clampPos_eq_max]
  · simp [max_count_total, clampPos_eq_max]
  · rfl

/-- Witness for C2 at Scenario B. -/
theorem claim_c2_witness :
    PosFlavor scenario_a_flavor ∧
    (count_free_slots_by_flavor () [] scenario_a_flavor
       = Except.ok (free_count scenario_a_flavor [], max_count_total scenario_a_flavor []) ∧
     0 ≤ free_count scenario_a_flavor [] ∧ 0 ≤ max_count_total scenario_a_flavor [] ∧
     free_count scenario_a_flavor [scenario_b_node]
       = max (free_fit scenario_b_node scenario_a_flavor) 0 + free_count scenario_a_flavor [] ∧
     max_count_total scenario_a_flavor [scenario_b_node]
       = max (max_fit scenario_b_node scenario_a_flavor) 0 + max_count_total scenario_a_flavor [] ∧
     free_fit scenario_b_node scenario_a_flavor < 0 ∧
     count_free_slots_by_flavor () [scenario_b_node] scenario_a_flavor = Except.ok (0, 4)) :=
  ⟨by decide, claim_c2 () [] scenario_a_flavor scenario_b_node (by decide)⟩

/-- Counterexample to C3 as stated: on the flavor of Scenario D
(`memory_mb = 0`) and the empty node list, `count_free_slots_by_flavor`
returns the number pair `(0, 0)` instead of failing with any error. -/
theorem claim_c3_counterexample :
    count_free_slots_by_flavor () ([] : List ComputeNode) scenario_d_flavor
      = Except.ok (0, 0) := rfl

/-- Claim C3 amended: with any zero constraint divisor the function raises an
unhandled `ZeroDivisionError` (carrying no dimension name; there is no
`InvalidFlavorError` in the code) as soon as the node list is non-empty, and
returns `(0, 0)` without error on the empty node list. -/
theorem claim_c3_amended {α : Type} (ctxt : α) (node : ComputeNode)
    (rest : List ComputeNode) (flavor : Flavor)
    (h : flavor.vcpus = 0 ∨ flavor.memory_mb = 0 ∨ flavor.root_gb + flavor.ephemeral_gb = 0) :
    count_free_slots_by_flavor ctxt (node :: rest) flavor
      = Except.error PyError.zeroDivisionError ∧
    count_free_slots_by_flavor ctxt ([] : List ComputeNode) flavor = Except.ok (0, 0) := by
  constructor
  · simp [count_free_slots_by_flavor, countFreeGo,
      node_fits_zero_divisor node flavor h, Except.bind]
  · rfl

/-- Witness for the amended C3 at Scenario D. -/
theorem claim_c3_amended_witness :
    count_free_slots_by_flavor () [scenario_a_node] scenario_d_flavor
        = Except.error PyError.zeroDivisionError ∧
    count_free_slots_by_flavor () ([] : List ComputeNode) scenario_d_flavor
        = Except.ok (0, 0) :=
  claim_c3_amended () scenario_a_node [] scenario_d_flavor (Or.inr (Or.inl rfl))

/-- Claim C7: on the empty node list the function returns `(0, 0)`. -/
theorem claim_c7 {α : Type} (ctxt : α) (flavor : Flavor) (h : PosFlavor flavor) :
    count_free_slots_by_flavor ctxt ([] : List ComputeNode) flavor = Except.ok (0, 0) := rfl

/-- Witness for C7. -/
theorem claim_c7_witness :
    PosFlavor scenario_a_flavor ∧
    count_free_slots_by_flavor () ([] : List ComputeNode) scenario_a_flavor
      = Except.ok (0, 0) :=
  ⟨by decide, claim_c7 () scenario_a_flavor (by decide)⟩

/-- Claim C10: the `ctxt` argument has no influence on the result, even
across different context types. -/
theorem claim_c10 {α β : Type} (c1 : α) (c2 : β) (nodes : List ComputeNode)
    (flavor : Flavor) :
    count_free_slots_by_flavor c1 nodes flavor = count_free_slots_by_flavor c2 nodes flavor :=
  rfl

/-- A sane node (nonnegative used counters, free RAM at most total RAM) has
its free fit bounded by its max fit. -/
theorem free_fit_le_max_fit (node : ComputeNode) (flavor : Flavor) (h : PosFlavor flavor)
    (hu : 0 ≤ node.vcpus_used) (hd : 0 ≤ node.local_gb_used)
    (hm : node.free_ram_mb ≤ node.memory_mb) :
    free_fit node flavor ≤ max_fit node flavor := by
  obtain ⟨h1, h2, h3⟩ := h
  unfold free_fit max_fit
  exact min_le_min
    (min_le_min (fdiv_le_fdiv_num h1 (by omega)) (fdiv_le_fdiv_num h2 hm))
    (fdiv_le_fdiv_num h3 (by omega))

theorem free_count_le_max_count (flavor : Flavor) (h : PosFlavor flavor) :
    ∀ nodes : List ComputeNode,
      (∀ node ∈ nodes, 0 ≤ node.vcpus_used ∧ 0 ≤ node.local_gb_used ∧
        node.free_ram_mb ≤ node.memory_mb) →
      free_count flavor nodes ≤ max_count_total flavor nodes
  | [], _ => le_refl 0
  | node :: rest, hn => by
      have hhead := hn node (List.mem_cons_self node rest)
      have htail := free_count_le_max_count flavor h rest
        (fun n hm => hn n (List.mem_cons_of_mem node hm))
      have hfit := free_fit_le_max_fit node flavor h hhead.1 hhead.2.1 hhead.2.2
      have hcl := clampPos_mono hfit
      unfold free_count max_count_total
      omega

/-- Claim C4: with strictly positive divisors and nodes whose used counters
are nonnegative and whose free RAM never exceeds total RAM, the returned
pair satisfies `free_count ≤ max_count`. -/
theorem claim_c4 {α : Type} (ctxt : α) (nodes : List ComputeNode) (flavor : Flavor)
    (hf : PosFlavor flavor)
    (hn : ∀ node ∈ nodes, 0 ≤ node.vcpus_used ∧ 0 ≤ node.local_gb_used ∧
      node.free_ram_mb ≤ node.memory_mb) :
    count_free_slots_by_flavor ctxt nodes flavor
      = Except.ok (free_count flavor nodes, max_count_total flavor nodes) ∧
    free_count flavor nodes ≤ max_count_total flavor nodes :=
  ⟨count_free_slots_eq ctxt nodes flavor hf, free_count_le_max_count flavor hf nodes hn⟩

/-- Witness for C4 at Scenario A. -/
theorem claim_c4_witness :
    PosFlavor scenario_a_flavor ∧
    (count_free_slots_by_flavor () [scenario_a_node] scenario_a_flavor
       = Except.ok (free_count scenario_a_flavor [scenario_a_node],
                    max_count_total scenario_a_flavor [scenario_a_node]) ∧
     free_count scenario_a_flavor [scenario_a_node]
       ≤ max_count_total scenario_a_flavor [scenario_a_node]) :=
  ⟨by decide, claim_c4 () [scenario_a_node] scenario_a_flavor (by decide) (by decide)⟩

/-- Free fit is monotone in a node's three free-resource quantities. -/
theorem free_fit_mono_node (n n' : ComputeNode) (flavor : Flavor) (h : PosFlavor flavor)
    (h1 : n.free_ram_mb ≤ n'.free_ram_mb)
    (h2 : n.vcpus - n.vcpus_used ≤ n'.vcpus - n'.vcpus_used)
    (h3 : n.local_gb - n.local_gb_used ≤ n'.local_gb - n'.local_gb_used) :
    free_fit n flavor ≤ free_fit n' flavor := by
  obtain ⟨p1, p2, p3⟩ := h
  unfold free_fit
  exact min_le_min
    (min_le_min (fdiv_le_fdiv_num p1 h2) (fdiv_le_fdiv_num p2 h1))
    (fdiv_le_fdiv_num p3 h3)

theorem free_count_set_mono (flavor : Flavor) (h : PosFlavor flavor) :
    ∀ (nodes : List ComputeNode) (i : Nat) (hi : i < nodes.length) (n' : ComputeNode),
      (nodes.get ⟨i, hi⟩).free_ram_mb ≤ n'.free_ram_mb →
      (nodes.get ⟨i, hi⟩).vcpus - (nodes.get ⟨i, hi⟩).vcpus_used
        ≤ n'.vcpus - n'.vcpus_used →
      (nodes.get ⟨i, hi⟩).local_gb - (nodes.get ⟨i, hi⟩).local_gb_used
        ≤ n'.local_gb - n'.local_gb_used →
      free_count flavor nodes ≤ free_count flavor (nodes.set i n')
  | [], i, hi, n' => by simp at hi
  | n :: rest, 0, hi, n' => by
      intro h1 h2 h3
      simp only [List.get] at h1 h2 h3
      simp only [List.set]
      unfold free_count
      have hfit := free_fit_mono_node n n' flavor h h1 h2 h3
      have hcl := clampPos_mono hfit
      omega
  | n :: rest, i + 1, hi, n' => by
      intro h1 h2 h3
      simp only [List.get] at h1 h2 h3
      simp only [List.set]
      unfold free_count
      have htail := free_count_set_mono flavor h rest i
        (by simpa using hi) n' h1 h2 h3
      omega

/-- Claim C5: replacing one node by a node with at least as much free RAM,
free CPUs and free disk (everything else unchanged does not matter to the
free total) never decreases the free count. -/
theorem claim_c5 {α : Type} (ctxt : α) (flavor : Flavor) (nodes : List ComputeNode)
    (i : Nat) (hi : i < nodes.length) (n' : ComputeNode) (h : PosFlavor flavor)
    (h1 : (nodes.get ⟨i, hi⟩).free_ram_mb ≤ n'.free_ram_mb)
    (h2 : (nodes.get ⟨i, hi⟩).vcpus - (nodes.get ⟨i, hi⟩).vcpus_used
      ≤ n'.vcpus - n'.vcpus_used)
    (h3 : (nodes.get ⟨i, hi⟩).local_gb - (nodes.get ⟨i, hi⟩).local_gb_used
      ≤ n'.local_gb - n'.local_gb_used) :
    count_free_slots_by_flavor ctxt nodes flavor
      = Except.ok (free_count flavor nodes, max_count_total flavor nodes) ∧
    count_free_slots_by_flavor ctxt (nodes.set i n') flavor
      = Except.ok (free_count flavor (nodes.set i n'),
                   max_count_total flavor (nodes.set i n')) ∧
    free_count flavor nodes ≤ free_count flavor (nodes.set i n') :=
  ⟨count_free_slots_eq ctxt nodes flavor h,
   count_free_slots_eq ctxt (nodes.set i n') flavor h,
   free_count_set_mono flavor h nodes i hi n' h1 h2 h3⟩

/-- Scenario A node with more free RAM, used for the C5 witness. -/
def scenario_a_node_more_ram : ComputeNode :=
  { hypervisor_hostname := "node-1", vcpus := 8, vcpus_used := 2, memory_mb := 16000,
    free_ram_mb := 12000, local_gb := 100, local_gb_used := 40 }

/-- Witness for C5: raising Scenario A's free RAM. -/
theorem claim_c5_witness :
    PosFlavor scenario_a_flavor ∧
    (count_free_slots_by_flavor () [scenario_a_node] scenario_a_flavor
       = Except.ok (free_count scenario_a_flavor [scenario_a_node],
                    max_count_total scenario_a_flavor [scenario_a_node]) ∧
     count_free_slots_by_flavor () ([scenario_a_node].set 0 scenario_a_node_more_ram)
         scenario_a_flavor
       = Except.ok (free_count scenario_a_flavor
             ([scenario_a_node].set 0 scenario_a_node_more_ram),
           max_count_total scenario_a_flavor
             ([scenario_a_node].set 0 scenario_a_node_more_ram)) ∧
     free_count scenario_a_flavor [scenario_a_node]
       ≤ free_count scenario_a_flavor ([scenario_a_node].set 0 scenario_a_node_more_ram)) :=
  ⟨by decide, claim_c5 () scenario_a_flavor [scenario_a_node] 0 (by decide)
    scenario_a_node_more_ram (by decide) (by decide) (by decide) (by decide)⟩

/-- Growing the three divisors never grows the clamped minimum of the three
floor quotients: with some numerator negative both clamps are settled by the
negative quotient, otherwise each quotient is antitone in its divisor. -/
theorem clamp_min3_fdiv_anti (a1 a2 a3 b1 b2 b3 c1 c2 c3 : Int)
    (hb1 : 0 < b1) (hb2 : 0 < b2) (hb3 : 0 < b3)
    (h1 : b1 ≤ c1) (h2 : b2 ≤ c2) (h3 : b3 ≤ c3) :
    clampPos (min (min (Int.fdiv a1 c1) (Int.fdiv a2 c2)) (Int.fdiv a3 c3))
      ≤ clampPos (min (min (Int.fdiv a1 b1) (Int.fdiv a2 b2)) (Int.fdiv a3 b3)) := by
  have hc1 : 0 < c1 := lt_of_lt_of_le hb1 h1
  have hc2 : 0 < c2 := lt_of_lt_of_le hb2 h2
  have hc3 : 0 < c3 := lt_of_lt_of_le hb3 h3
  by_cases ha1 : 0 ≤ a1
  · by_cases ha2 : 0 ≤ a2
    · by_cases ha3 : 0 ≤ a3
      · exact clampPos_mono (min_le_min
          (min_le_min (fdiv_antitone_den ha1 hb1 h1) (fdiv_antitone_den ha2 hb2 h2))
          (fdiv_antitone_den ha3 hb3 h3))
      · have hneg : min (min (Int.fdiv a1 c1) (Int.fdiv a2 c2)) (Int.fdiv a3 c3) < 0 :=
          lt_of_le_of_lt (min_le_right _ _) (fdiv_neg_of_neg (by omega) hc3)
        rw [clampPos_eq_zero_of_nonpos hneg.le]
        exact clampPos_nonneg _
    · have hneg : min (min (Int.fdiv a1 c1) (Int.fdiv a2 c2)) (Int.fdiv a3 c3) < 0 :=
        lt_of_le_of_lt (le_trans (min_le_left _ _) (min_le_right _ _))
          (fdiv_neg_of_neg (by omega) hc2)
      rw [clampPos_eq_zero_of_nonpos hneg.le]
      exact clampPos_nonneg _
  · have hneg : min (min (Int.fdiv a1 c1) (Int.fdiv a2 c2)) (Int.fdiv a3 c3) < 0 :=
      lt_of_le_of_lt (le_trans (min_le_left _ _) (min_le_left _ _))
        (fdiv_neg_of_neg (by omega) hc1)
    rw [clampPos_eq_zero_of_nonpos hneg.le]
    exact clampPos_nonneg _

theorem clamp_free_fit_anti_flavor (n : ComputeNode) (f f' : Flavor)
    (hf : PosFlavor f)
    (h1 : f.vcpus ≤ f'.vcpus) (h2 : f.memory_mb ≤ f'.memory_mb)
    (h3 : f.root_gb + f.ephemeral_gb ≤ f'.root_gb + f'.ephemeral_gb) :
    clampPos (free_fit n f') ≤ clampPos (free_fit n f) := by
  unfold free_fit
  exact clamp_min3_fdiv_anti _ _ _ _ _ _ _ _ _ hf.1 hf.2.1 hf.2.2 h1 h2 h3

theorem clamp_max_fit_anti_flavor (n : ComputeNode) (f f' : Flavor)
    (hf : PosFlavor f)
    (h1 : f.vcpus ≤ f'.vcpus) (h2 : f.memory_mb ≤ f'.memory_mb)
    (h3 : f.root_gb + f.ephemeral_gb ≤ f'.root_gb + f'.ephemeral_gb) :
    clampPos (max_fit n f') ≤ clampPos (max_fit n f) := by
  unfold max_fit
  exact clamp_min3_fdiv_anti _ _ _ _ _ _ _ _ _ hf.1 hf.2.1 hf.2.2 h1 h2 h3

theorem free_count_anti_flavor (f f' : Flavor) (hf : PosFlavor f)
    (h1 : f.vcpus ≤ f'.vcpus) (h2 : f.memory_mb ≤ f'.memory_mb)
    (h3 : f.root_gb + f.ephemeral_gb ≤ f'.root_gb + f'.ephemeral_gb) :
    ∀ nodes : List ComputeNode, free_count f' nodes ≤ free_count f nodes
  | [] => le_refl 0
  | n :: rest => by
      have hh := clamp_free_fit_anti_flavor n f f' hf h1 h2 h3
      have ht := free_count_anti_flavor f f' hf h1 h2 h3 rest
      unfold free_count
      omega

theorem max_count_anti_flavor (f f' : Flavor) (hf : PosFlavor f)
    (h1 : f.vcpus ≤ f'.vcpus) (h2 : f.memory_mb ≤ f'.memory_mb)
    (h3 : f.root_gb + f.ephemeral_gb ≤ f'.root_gb + f'.ephemeral_gb) :
    ∀ nodes : List ComputeNode, max_count_total f' nodes ≤ max_count_total f nodes
  | [] => le_refl 0
  | n :: rest => by
      have hh := clamp_max_fit_anti_flavor n f f' hf h1 h2 h3
      have ht := max_count_anti_flavor f f' hf h1 h2 h3 rest
      unfold max_count_total
      omega

/-- Claim C6: for a fixed node list, increasing any flavor requirement (with
all divisors strictly positive before and after) never increases the free or
the max total. -/
theorem claim_c6 {α : Type} (ctxt : α) (nodes : List ComputeNode) (f f' : Flavor)
    (hf : PosFlavor f) (hf' : PosFlavor f')
    (h1 : f.vcpus ≤ f'.vcpus) (h2 : f.memory_mb ≤ f'.memory_mb)
    (h3 : f.root_gb ≤ f'.root_gb) (h4 : f.ephemeral_gb ≤ f'.ephemeral_gb) :
    count_free_slots_by_flavor ctxt nodes f
      = Except.ok (free_count f nodes, max_count_total f nodes) ∧
    count_free_slots_by_flavor ctxt nodes f'
      = Except.ok (free_count f' nodes, max_count_total f' nodes) ∧
    free_count f' nodes ≤ free_count f nodes ∧
    max_count_total f' nodes ≤ max_count_total f nodes := by
  have hd : f.root_gb + f.ephemeral_gb ≤ f'.root_gb + f'.ephemeral_gb := by omega
  exact ⟨count_free_slots_eq ctxt nodes f hf, count_free_slots_eq ctxt nodes f' hf',
    free_count_anti_flavor f f' hf h1 h2 hd nodes,
    max_count_anti_flavor f f' hf h1 h2 hd nodes⟩

/-- Scenario A flavor with a larger memory requirement, for the C6 witness. -/
def scenario_a_flavor_bigger : Flavor :=
  { name := "m1.large", vcpus := 2, memory_mb := 3000, root_gb := 10, ephemeral_gb := 0 }

/-- Witness for C6: growing Scenario A's memory requirement. -/
theorem claim_c6_witness :
    PosFlavor scenario_a_flavor ∧ PosFlavor scenario_a_flavor_bigger ∧
    (count_free_slots_by_flavor () [scenario_a_node] scenario_a_flavor
       = Except.ok (free_count scenario_a_flavor [scenario_a_node],
                    max_count_total scenario_a_flavor [scenario_a_node]) ∧
     count_free_slots_by_flavor () [scenario_a_node] scenario_a_flavor_bigger
       = Except.ok (free_count scenario_a_flavor_bigger [scenario_a_node],
                    max_count_total scenario_a_flavor_bigger [scenario_a_node]) ∧
     free_count scenario_a_flavor_bigger [scenario_a_node]
       ≤ free_count scenario_a_flavor [scenario_a_node] ∧
     max_count_total scenario_a_flavor_bigger [scenario_a_node]
       ≤ max_count_total scenario_a_flavor [scenario_a_node]) :=
  ⟨by decide, by decide,
   claim_c6 () [scenario_a_node] scenario_a_flavor scenario_a_flavor_bigger
     (by decide) (by decide) (by decide) (by decide) (by decide) (by decide)⟩

/-- A compute-service record: a disabled flag and its compute nodes. -/
structure Service where
  disabled : Bool
  compute_node : List ComputeNode
  deriving Repr, DecidableEq

/-- The node-collection loop of `main`: nodes of every non-disabled service,
in order. -/
def collect_enabled_compute_nodes : List Service → List ComputeNode
  | [] => []
  | s :: rest =>
    if s.disabled then collect_enabled_compute_nodes rest
    else s.compute_node ++ collect_enabled_compute_nodes rest

/-- Stable insertion into a sorted list (Python list.sort is stable). -/
def insert_sorted {β : Type} (le : β → β → Bool) (x : β) : List β → List β
  | [] => [x]
  | y :: rest => if le x y then x :: y :: rest else y :: insert_sorted le x rest

/-- Stable sort by a boolean total order. -/
def sort_stable {β : Type} (le : β → β → Bool) : List β → List β
  | [] => []
  | x :: rest => insert_sorted le x (sort_stable le rest)

/-- The hostname order used by `compute_nodes.sort` in `main`. -/
def node_le (x y : ComputeNode) : Bool :=
  decide (x.hypervisor_hostname ≤ y.hypervisor_hostname)

/-- The node list `main` feeds to every capacity computation: enabled
services' nodes, sorted by hostname. -/
def service_compute_nodes (services : List Service) : List ComputeNode :=
  sort_stable node_le (collect_enabled_compute_nodes services)

/-- Claim C8: a disabled service's nodes never enter the aggregation list,
so every total computed from it is the same whether the disabled service is
present or absent. -/
theorem claim_c8 {α : Type} (ctxt : α) (pre post : List Service) (s : Service)
    (hd : s.disabled = true) (flavor : Flavor) :
    collect_enabled_compute_nodes (pre ++ s :: post)
      = collect_enabled_compute_nodes (pre ++ post) ∧
    service_compute_nodes (pre ++ s :: post) = service_compute_nodes (pre ++ post) ∧
    count_free_slots_by_flavor ctxt (service_compute_nodes (pre ++ s :: post)) flavor
      = count_free_slots_by_flavor ctxt (service_compute_nodes (pre ++ post)) flavor := by
  have hcol : collect_enabled_compute_nodes (pre ++ s :: post)
      = collect_enabled_compute_nodes (pre ++ post) := by
    induction pre with
    | nil => simp [collect_enabled_compute_nodes, hd]
    | cons t ts ih =>
        cases ht : t.disabled <;>
          simp [collect_enabled_compute_nodes, ht, ih]
  refine ⟨hcol, ?_, ?_⟩
  · unfold service_compute_nodes
    rw [hcol]
  · unfold service_compute_nodes
    rw [hcol]

/-- A disabled service holding Scenario A's node, for the C8 witness. -/
def scenario_disabled_service : Service :=
  { disabled := true, compute_node := [scenario_a_node] }

/-- Witness for C8: one disabled service against the empty catalog. -/
theorem claim_c8_witness :
    scenario_disabled_service.disabled = true ∧
    (collect_enabled_compute_nodes ([] ++ scenario_disabled_service :: [])
       = collect_enabled_compute_nodes ([] ++ []) ∧
     service_compute_nodes ([] ++ scenario_disabled_service :: [])
       = service_compute_nodes ([] ++ []) ∧
     count_free_slots_by_flavor ()
         (service_compute_nodes ([] ++ scenario_disabled_service :: [])) scenario_a_flavor
       = count_free_slots_by_flavor ()
         (service_compute_nodes ([] ++ [])) scenario_a_flavor) :=
  ⟨rfl, claim_c8 () [] [] scenario_disabled_service rfl scenario_a_flavor⟩

/-- The flavor comparator of `main` (`cmp_flavor`): ascending CPUs, ties by
ascending memory, as a boolean total order for the stable sort. -/
def flavor_le (x y : Flavor) : Bool :=
  decide (x.vcpus < y.vcpus) || (decide (x.vcpus = y.vcpus) && decide (x.memory_mb ≤ y.memory_mb))

/-- The report path of `main` after node collection: filter the flavor
catalog when a filter is given, sort by `cmp_flavor`, compute
`flavor_len = max(len(f.name) for f in flavors)` — which in Python 2 raises
`ValueError` on an empty sequence — then emit one row per flavor from
`count_free_slots_by_flavor`. -/
def main_report {α : Type} (ctxt : α) (compute_nodes : List ComputeNode)
    (flavors : List Flavor) (filter_flavors : List String) :
    Except PyError (List (String × Int × Int)) :=
  let selected := if filter_flavors.isEmpty then flavors
    else flavors.filter (fun f => filter_flavors.contains f.name)
  let sorted := sort_stable flavor_le selected
  if sorted.isEmpty then Except.error PyError.valueError
  else sorted.mapM (fun f =>
    Except.map (fun p => (f.name, p.1, p.2)) (count_free_slots_by_flavor ctxt compute_nodes f))

/-- Claim C9 fails on the code: with an empty flavor catalog, or with a
flavor-name filter matching nothing, the report driver raises `ValueError`
(from `max()` over an empty sequence) instead of completing with an empty
report. -/
theorem claim_c9_bug :
    main_report () ([] : List ComputeNode) ([] : List Flavor) [] = Except.error PyError.valueError ∧
    main_report () [scenario_a_node] [scenario_a_flavor] ["no-such-flavor"]
      = Except.error PyError.valueError := by
  exact ⟨rfl, rfl⟩

end OpenstackFreeUsage
